import Mathlib

/-!
Shallow embedding of the password-strength validation component of the
tonight-mobile repository: `PASSWORD_REQUIREMENTS`, `ADDITIONAL_REQUIREMENTS`,
`validatePassword`, `getPasswordStrengthColor` and `getPasswordStrengthText`.

Strings are modelled as lists of characters.  JavaScript regular-expression
tests are modelled as boolean functions on such lists, following ECMAScript
semantics; in particular `.` in a regex without the `s` flag does not match
the line terminators U+000A, U+000D, U+2028 and U+2029.  The numeric score is
modelled with exact rationals.  Every reachable score is a multiple of 1/2
between 0 and 7, so every reachable strength ratio is at distance at least
1/35 from each of the thresholds 0.4, 0.6 and 0.8; IEEE double evaluation in
the source therefore decides every comparison exactly as the rationals do.
-/

/-- The strength levels, the TS union type of string literals
weak, fair, good, strong. -/
inductive PasswordStrength where
  | weak
  | fair
  | good
  | strong
deriving DecidableEq

/-- The record returned by `validatePassword`, interface
PasswordValidationResult of the source. -/
structure PasswordValidationResult where
  isValid : Bool
  errors : List String
  strength : PasswordStrength
deriving DecidableEq

/-- One password rule: a boolean predicate, a user-facing message and a
score weight, interface PasswordRequirement of the source. -/
structure PasswordRequirement where
  test : List Char → Bool
  message : String
  weight : ℚ

/-- The character class of the fifth required rule's regex in the source. -/
def specialChars : List Char :=
  ['!', '@', '#', '$', '%', '^', '&', '*', '(', ')', '_', '+', '-', '=',
   '[', ']', '\x7b', '\x7d', ';', '\'', ':', '"', '\\', '|', ',', '.',
   '<', '>', '/', '?']

/-- ECMAScript line terminators: the characters that `.` in a regex
without the `s` flag does not match. -/
def isLineTerminator (c : Char) : Bool :=
  c == '\n' || c == '\r' || c == '\u2028' || c == '\u2029'

/-- The ECMAScript test `(.)\1\x7b2,\x7d` : some character, other than a
line terminator, is immediately followed by two further copies of itself. -/
def hasTripleRepeat : List Char → Bool
  | a :: b :: c :: rest =>
      (!isLineTerminator a && a == b && a == c) || hasTripleRepeat (b :: c :: rest)
  | _ => false

/-- The ECMAScript test `^[0-9]+$` : the whole string is one or more
decimal digits. -/
def isAllDigits (p : List Char) : Bool :=
  !p.isEmpty && p.all (fun c => decide ('0' ≤ c ∧ c ≤ '9'))

/-- ASCII model of `String.prototype.toLowerCase`, which covers the ASCII
denylist entries it is compared against. -/
def jsToLower (p : List Char) : List Char :=
  p.map Char.toLower

/-- Model of `String.prototype.includes`: `jsIncludes s sub` holds iff
`sub` occurs as a contiguous substring of `s`. -/
def jsIncludes : List Char → List Char → Bool
  | [], sub => sub.isPrefixOf ([] : List Char)
  | a :: rest, sub => sub.isPrefixOf (a :: rest) || jsIncludes rest sub

/-- The five required rules of the source, in declaration order. -/
def PASSWORD_REQUIREMENTS : List PasswordRequirement :=
  [ { test := fun password => decide (8 ≤ password.length),
      message := "At least 8 characters",
      weight := 1 },
    { test := fun password => password.any (fun c => decide ('A' ≤ c ∧ c ≤ 'Z')),
      message := "At least one uppercase letter",
      weight := 1 },
    { test := fun password => password.any (fun c => decide ('a' ≤ c ∧ c ≤ 'z')),
      message := "At least one lowercase letter",
      weight := 1 },
    { test := fun password => password.any (fun c => decide ('0' ≤ c ∧ c ≤ '9')),
      message := "At least one number",
      weight := 1 },
    { test := fun password => password.any (fun c => specialChars.contains c),
      message := "At least one special character (!@#$%^&*()_+-=[]\x7b\x7d|;:,.<>?)",
      weight := 1 } ]

/-- The four advisory rules of the source, in declaration order. -/
def ADDITIONAL_REQUIREMENTS : List PasswordRequirement :=
  [ { test := fun password => decide (12 ≤ password.length),
      message := "At least 12 characters (recommended)",
      weight := 0.5 },
    { test := fun password => !hasTripleRepeat password,
      message := "No more than 2 consecutive identical characters",
      weight := 0.5 },
    { test := fun password => !isAllDigits password,
      message := "Not entirely numeric",
      weight := 0.5 },
    { test := fun password =>
        !(["password", "123456", "qwerty", "abc123", "password123"].any
            (fun common => jsIncludes (jsToLower password) common.data)),
      message := "Not a common password pattern",
      weight := 0.5 } ]

/-- The evaluator, function validatePassword of the source.  The two
imperative loops are folds: the loop over the required rules both collects
error messages and accumulates the score; the loop over the advisory rules
only accumulates the score. -/
def validatePassword (password : List Char) : PasswordValidationResult :=
  let maxScore : ℚ :=
    PASSWORD_REQUIREMENTS.foldl (fun sum req => sum + req.weight) 0 +
    ADDITIONAL_REQUIREMENTS.foldl (fun sum req => sum + req.weight) 0
  let checked :=
    PASSWORD_REQUIREMENTS.foldl
      (fun acc req =>
        if req.test password then (acc.1, acc.2 + req.weight)
        else (acc.1 ++ [req.message], acc.2))
      (([] : List String), (0 : ℚ))
  let errors := checked.1
  let score :=
    ADDITIONAL_REQUIREMENTS.foldl
      (fun s req => if req.test password then s + req.weight else s) checked.2
  let strengthRatio := score / maxScore
  let strength : PasswordStrength :=
    if strengthRatio < 0.4 then .weak
    else if strengthRatio < 0.6 then .fair
    else if strengthRatio < 0.8 then .good
    else .strong
  { isValid := errors.length == 0, errors := errors, strength := strength }

/-- Hex colour token per strength level, function getPasswordStrengthColor
of the source; the source's default branch is unreachable for the four
values of the union type. -/
def getPasswordStrengthColor : PasswordStrength → String
  | .weak => "#ff4444"
  | .fair => "#ff8800"
  | .good => "#44aa44"
  | .strong => "#00aa00"

/-- Display label per strength level, function getPasswordStrengthText of
the source; the source's default branch is unreachable for the four values
of the union type. -/
def getPasswordStrengthText : PasswordStrength → String
  | .weak => "Weak"
  | .fair => "Fair"
  | .good => "Good"
  | .strong => "Strong"

/-- Spec-side: the number of required rules whose predicate passes. -/
def requiredPassCount (p : List Char) : Nat :=
  (PASSWORD_REQUIREMENTS.filter (fun r => r.test p)).length

/-- Spec-side: the number of advisory rules whose predicate passes. -/
def advisoryPassCount (p : List Char) : Nat :=
  (ADDITIONAL_REQUIREMENTS.filter (fun r => r.test p)).length

/-- Spec-side score: each required rule that passes contributes 1.0 and
each advisory rule that passes contributes 0.5. -/
def specScore (p : List Char) : ℚ :=
  (requiredPassCount p : ℚ) * 1 + (advisoryPassCount p : ℚ) * 0.5

/-- Spec-side maximum score: 5 required rules at 1.0 plus 4 advisory
rules at 0.5. -/
def specMaxScore : ℚ := 7

/-- Spec-side strength classification: thresholds 0.4, 0.6 and 0.8 on the
ratio score / maxScore. -/
def specStrength (p : List Char) : PasswordStrength :=
  let ratio := specScore p / specMaxScore
  if ratio < 0.4 then .weak
  else if ratio < 0.6 then .fair
  else if ratio < 0.8 then .good
  else .strong

/-- Spec-side validity predicate, from the claim wording: length at least
8 and at least one uppercase letter, lowercase letter, digit and special
character. -/
def specValid (p : List Char) : Prop :=
  8 ≤ p.length ∧
  (∃ c ∈ p, 'A' ≤ c ∧ c ≤ 'Z') ∧
  (∃ c ∈ p, 'a' ≤ c ∧ c ≤ 'z') ∧
  (∃ c ∈ p, '0' ≤ c ∧ c ≤ '9') ∧
  (∃ c ∈ p, c ∈ specialChars)

/-- Spec-side: some character occurs at three adjacent positions of `p`. -/
def threeAdjacentSame (p : List Char) : Prop :=
  ∃ i c, p[i]? = some c ∧ p[i + 1]? = some c ∧ p[i + 1 + 1]? = some c

/-- Spec-side: some character that is not a line terminator occurs at
three adjacent positions of `p`. -/
def threeAdjacentSameNonTerm (p : List Char) : Prop :=
  ∃ i c, isLineTerminator c = false ∧
    p[i]? = some c ∧ p[i + 1]? = some c ∧ p[i + 1 + 1]? = some c

/-- Position of a strength level in the order weak < fair < good < strong. -/
def strengthRank : PasswordStrength → Nat
  | .weak => 0
  | .fair => 1
  | .good => 2
  | .strong => 3

/-! ### Lemmas about the two evaluation loops -/

/-- The error-message component of the loop over the required rules:
exactly the messages of the failing rules, in declaration order. -/
lemma requiredFold_fst (p : List Char) (reqs : List PasswordRequirement)
    (acc : List String × ℚ) :
    (reqs.foldl
      (fun acc req =>
        if req.test p then (acc.1, acc.2 + req.weight)
        else (acc.1 ++ [req.message], acc.2)) acc).1
      = acc.1 ++ (reqs.filter (fun r => !r.test p)).map PasswordRequirement.message := by
  induction reqs generalizing acc with
  | nil => simp
  | cons r rs ih =>
      cases h : r.test p with
      | true => simp [h, ih]
      | false => simp [h, ih]

/-- The score component of the loop over the required rules: the sum of
the weights of the passing rules. -/
lemma requiredFold_snd (p : List Char) (reqs : List PasswordRequirement)
    (acc : List String × ℚ) :
    (reqs.foldl
      (fun acc req =>
        if req.test p then (acc.1, acc.2 + req.weight)
        else (acc.1 ++ [req.message], acc.2)) acc).2
      = acc.2 + ((reqs.filter (fun r => r.test p)).map PasswordRequirement.weight).sum := by
  induction reqs generalizing acc with
  | nil => simp
  | cons r rs ih =>
      cases h : r.test p with
      | true => simp [h, ih, add_assoc]
      | false => simp [h, ih]

/-- The loop over the advisory rules adds the weights of the passing
rules to the running score. -/
lemma advisoryFold (p : List Char) (reqs : List PasswordRequirement) (s : ℚ) :
    (reqs.foldl (fun s req => if req.test p then s + req.weight else s) s)
      = s + ((reqs.filter (fun r => r.test p)).map PasswordRequirement.weight).sum := by
  induction reqs generalizing s with
  | nil => simp
  | cons r rs ih =>
      cases h : r.test p with
      | true => simp [h, ih, add_assoc]
      | false => simp [h, ih]

/-- The sum of the weights over a filtered rule list with constant
weights is the count of kept rules times the weight. -/
lemma sum_map_weight_const (reqs : List PasswordRequirement)
    (f : PasswordRequirement → Bool) (w : ℚ) (h : ∀ r ∈ reqs, r.weight = w) :
    ((reqs.filter f).map PasswordRequirement.weight).sum
      = ((reqs.filter f).length : ℚ) * w := by
  induction reqs with
  | nil => simp
  | cons r rs ih =>
      have hr : r.weight = w := h r (by simp)
      have hrs : ∀ x ∈ rs, x.weight = w := fun x hx => h x (by simp [hx])
      cases hf : f r with
      | true =>
          simp only [List.filter_cons, hf, if_pos, List.map_cons, List.sum_cons,
            List.length_cons, ih hrs, hr]
          push_cast
          ring
      | false => simp [List.filter_cons, hf, ih hrs]

/-- Every required rule has weight 1. -/
lemma required_weights : ∀ r ∈ PASSWORD_REQUIREMENTS, r.weight = 1 := by
  intro r hr
  simp only [PASSWORD_REQUIREMENTS, List.mem_cons, List.not_mem_nil, or_false] at hr
  rcases hr with rfl | rfl | rfl | rfl | rfl <;> rfl

/-- Every advisory rule has weight 0.5. -/
lemma advisory_weights : ∀ r ∈ ADDITIONAL_REQUIREMENTS, r.weight = 0.5 := by
  intro r hr
  simp only [ADDITIONAL_REQUIREMENTS, List.mem_cons, List.not_mem_nil, or_false] at hr
  rcases hr with rfl | rfl | rfl | rfl <;> rfl

/-- The maximum score computed by the evaluator is 7. -/
lemma maxScore_eq :
    (PASSWORD_REQUIREMENTS.foldl (fun sum req => sum + req.weight) 0 +
      ADDITIONAL_REQUIREMENTS.foldl (fun sum req => sum + req.weight) 0 : ℚ) = 7 := by
  norm_num [PASSWORD_REQUIREMENTS, ADDITIONAL_REQUIREMENTS]

/-- The error list of the evaluator: the messages of the failing required
rules, in declaration order. -/
lemma validatePassword_errors (p : List Char) :
    (validatePassword p).errors
      = (PASSWORD_REQUIREMENTS.filter (fun r => !r.test p)).map
          PasswordRequirement.message := by
  simp [validatePassword, requiredFold_fst]

/-- The validity flag of the evaluator holds iff every required rule's
predicate passes. -/
lemma validatePassword_isValid (p : List Char) :
    (validatePassword p).isValid = true
      ↔ ∀ r ∈ PASSWORD_REQUIREMENTS, r.test p = true := by
  have h : (validatePassword p).isValid
      = (((PASSWORD_REQUIREMENTS.filter (fun r => !r.test p)).map
          PasswordRequirement.message).length == 0) := by
    simp [validatePassword, requiredFold_fst]
  rw [h]
  simp only [beq_iff_eq, List.length_eq_zero, List.map_eq_nil_iff,
    List.filter_eq_nil_iff]
  constructor
  · intro hall r hr
    have := hall r hr
    simpa using this
  · intro hall r hr
    simp [hall r hr]

/-- The strength computed by the evaluator equals the spec-side strength
classification. -/
lemma validatePassword_strength (p : List Char) :
    (validatePassword p).strength = specStrength p := by
  have hscore :
      (ADDITIONAL_REQUIREMENTS.foldl
          (fun s req => if req.test p then s + req.weight else s)
          (PASSWORD_REQUIREMENTS.foldl
            (fun acc req =>
              if req.test p then (acc.1, acc.2 + req.weight)
              else (acc.1 ++ [req.message], acc.2))
            (([] : List String), (0 : ℚ))).2)
        = specScore p := by
    rw [advisoryFold, requiredFold_snd,
      sum_map_weight_const PASSWORD_REQUIREMENTS _ 1 required_weights,
      sum_map_weight_const ADDITIONAL_REQUIREMENTS _ 0.5 advisory_weights]
    simp [specScore, requiredPassCount, advisoryPassCount]
  simp only [validatePassword, maxScore_eq, hscore]
  simp [specStrength, specMaxScore]

/-- Comparison of a natural number cast to the rationals against a
rational bound sandwiched between two consecutive integers. -/
lemma natCast_lt_rat_iff (n bound : ℕ) (q : ℚ)
    (hlo : (bound : ℚ) - 1 < q) (hhi : q ≤ (bound : ℚ)) :
    ((n : ℚ) < q ↔ n < bound) := by
  constructor
  · intro h
    have h2 : (n : ℚ) < (bound : ℚ) := lt_of_lt_of_le h hhi
    exact_mod_cast h2
  · intro h
    have h2 : (n : ℚ) + 1 ≤ (bound : ℚ) := by exact_mod_cast h
    linarith

/-- The spec-side strength classification in terms of integer points:
2 points per passing required rule, 1 point per passing advisory rule,
with bands splitting at 6, 9 and 12 points out of 14. -/
lemma specStrength_points (p : List Char) :
    specStrength p =
      (if 2 * requiredPassCount p + advisoryPassCount p < 6 then .weak
       else if 2 * requiredPassCount p + advisoryPassCount p < 9 then .fair
       else if 2 * requiredPassCount p + advisoryPassCount p < 12 then .good
       else .strong) := by
  have key : ∀ (c : ℚ) (bound : ℕ), (bound : ℚ) - 1 < 14 * c → 14 * c ≤ (bound : ℚ) →
      (specScore p / specMaxScore < c
        ↔ 2 * requiredPassCount p + advisoryPassCount p < bound) := by
    intro c bound hlo hhi
    have hcast : specScore p / specMaxScore < c
        ↔ ((2 * requiredPassCount p + advisoryPassCount p : ℕ) : ℚ) < 14 * c := by
      rw [specScore, specMaxScore, div_lt_iff₀ (by norm_num : (0 : ℚ) < 7)]
      push_cast
      constructor <;> intro h <;> linarith
    rw [hcast]
    exact natCast_lt_rat_iff _ bound _ hlo hhi
  have h04 := key 0.4 6 (by norm_num) (by norm_num)
  have h06 := key 0.6 9 (by norm_num) (by norm_num)
  have h08 := key 0.8 12 (by norm_num) (by norm_num)
  rw [specStrength]
  simp only [h04, h06, h08]

/-- The strength computed by the evaluator, in terms of integer points;
the right-hand side is evaluable by `decide`. -/
lemma validatePassword_strength_points (p : List Char) :
    (validatePassword p).strength =
      (if 2 * requiredPassCount p + advisoryPassCount p < 6 then .weak
       else if 2 * requiredPassCount p + advisoryPassCount p < 9 then .fair
       else if 2 * requiredPassCount p + advisoryPassCount p < 12 then .good
       else .strong) := by
  rw [validatePassword_strength, specStrength_points]

/-! ### The claims -/

/-- C1: for every string `s`, `validatePassword(s).isValid` is true iff
`s` has length at least 8 and contains at least one ASCII uppercase
letter, one ASCII lowercase letter, one decimal digit and one character
from the fixed special-character set. -/
theorem claim_C1 (p : List Char) :
    (validatePassword p).isValid = true ↔ specValid p := by
  rw [validatePassword_isValid]
  simp [PASSWORD_REQUIREMENTS, specValid, List.any_eq_true]

/-- C2: for every string `s`, `validatePassword(s).strength` is the
classification of the ratio score / 7, where each passing required rule
contributes 1.0 and each passing advisory rule contributes 0.5, with
bands weak below 0.4, fair below 0.6, good below 0.8 and strong
otherwise. -/
theorem claim_C2 (p : List Char) :
    (validatePassword p).strength = specStrength p :=
  validatePassword_strength p

/-- C3: for every string `s`, `validatePassword(s).errors` holds exactly
the messages of the failing required rules in declaration order, never a
message of an advisory rule, and is empty iff `isValid` is true. -/
theorem claim_C3 (p : List Char) :
    (validatePassword p).errors
      = (PASSWORD_REQUIREMENTS.filter (fun r => !r.test p)).map
          PasswordRequirement.message
    ∧ (∀ r ∈ ADDITIONAL_REQUIREMENTS, r.message ∉ (validatePassword p).errors)
    ∧ ((validatePassword p).errors = [] ↔ (validatePassword p).isValid = true) := by
  refine ⟨validatePassword_errors p, ?_, ?_⟩
  · intro r hr hmem
    rw [validatePassword_errors] at hmem
    simp only [List.mem_map, List.mem_filter] at hmem
    obtain ⟨q, ⟨hq, -⟩, hmsg⟩ := hmem
    simp only [PASSWORD_REQUIREMENTS, List.mem_cons, List.not_mem_nil,
      or_false] at hq
    simp only [ADDITIONAL_REQUIREMENTS, List.mem_cons, List.not_mem_nil,
      or_false] at hr
    rcases hr with rfl | rfl | rfl | rfl <;>
      rcases hq with rfl | rfl | rfl | rfl | rfl <;> simp at hmsg
  · rw [validatePassword_errors, validatePassword_isValid]
    simp only [List.map_eq_nil_iff, List.filter_eq_nil_iff]
    constructor
    · intro h r hr
      have := h r hr
      simpa using this
    · intro h r hr
      simp [h r hr]

/-- C4: for every string `s`, including the empty string and non-ASCII
content, evaluation terminates with a result, and two evaluations of the
same string agree on validity, errors and strength. -/
theorem claim_C4 (p : List Char) :
    (∃ r : PasswordValidationResult, validatePassword p = r)
      ∧ validatePassword p = validatePassword p :=
  ⟨⟨validatePassword p, rfl⟩, rfl⟩

/-- A password that passes all five required rules scores at least 5.0,
so its strength ratio is at least 5/7, above the fair band. -/
lemma valid_never_fair : ∀ p : List Char,
    (validatePassword p).isValid = false
      ∨ (validatePassword p).strength ≠ PasswordStrength.fair := by
  intro p
  cases hv : (validatePassword p).isValid with
  | false => exact Or.inl rfl
  | true =>
      right
      have hall := (validatePassword_isValid p).mp hv
      have hreq : requiredPassCount p = 5 := by
        have hfil : PASSWORD_REQUIREMENTS.filter (fun r => r.test p)
            = PASSWORD_REQUIREMENTS := by
          apply List.filter_eq_self.mpr
          intro a ha
          exact hall a ha
        rw [requiredPassCount, hfil]
        rfl
      rw [validatePassword_strength_points, hreq]
      have h6 : ¬ (2 * 5 + advisoryPassCount p < 6) := by omega
      have h9 : ¬ (2 * 5 + advisoryPassCount p < 9) := by omega
      rw [if_neg h6, if_neg h9]
      by_cases h12 : 2 * 5 + advisoryPassCount p < 12
      · rw [if_pos h12]
        decide
      · rw [if_neg h12]
        decide

/-- C5 fails on the code: there is no string that is both valid and
classified fair, because a valid password scores at least 5.0 of 7.0 and
its ratio is at least 5/7, which is at least 0.6. -/
theorem claim_C5_counterexample :
    ¬ ∃ p : List Char, (validatePassword p).isValid = true
      ∧ (validatePassword p).strength = PasswordStrength.fair := by
  rintro ⟨p, hv, hs⟩
  rcases valid_never_fair p with h | h
  · rw [hv] at h
    exact Bool.noConfusion h
  · exact h hs

/-- C5 amended: a password that passes all five required rules can still
fail enough advisory rules to be classified good rather than strong; it
can never drop to fair, since the required rules alone give ratio 5/7. -/
theorem claim_C5_amended : ∃ p : List Char,
    (validatePassword p).isValid = true
      ∧ (validatePassword p).strength = PasswordStrength.good := by
  refine ⟨"Qwerty1!aaa".data, by decide, ?_⟩
  rw [validatePassword_strength_points]
  decide

/-- C6 fails on the code: "password" also passes the no-consecutive-repeat
advisory rule, so its score is 3.0 rather than 2.5, its ratio 3/7 is above
0.4, and its strength is fair rather than weak. -/
theorem claim_C6_counterexample :
    (validatePassword "password".data).strength ≠ PasswordStrength.weak
      ∧ (validatePassword "password".data).strength = PasswordStrength.fair := by
  constructor
  · rw [validatePassword_strength_points]
    decide
  · rw [validatePassword_strength_points]
    decide

/-- C6 amended: `validatePassword("password")` returns isValid false with
errors exactly for the uppercase, digit and special-character rules, and
a score of 3.0 out of 7.0 (length and lowercase required rules at 1.0
each, not-all-digits and no-consecutive-repeat advisories at 0.5 each),
ratio 3/7, strength fair. -/
theorem claim_C6_amended :
    (validatePassword "password".data).isValid = false
    ∧ (validatePassword "password".data).errors =
        ["At least one uppercase letter", "At least one number",
         "At least one special character (!@#$%^&*()_+-=[]\x7b\x7d|;:,.<>?)"]
    ∧ specScore "password".data = 3
    ∧ (validatePassword "password".data).strength = PasswordStrength.fair := by
  refine ⟨by decide, by decide, ?_, ?_⟩
  · have h1 : requiredPassCount "password".data = 2 := by decide
    have h2 : advisoryPassCount "password".data = 2 := by decide
    rw [specScore, h1, h2]
    norm_num
  · rw [validatePassword_strength_points]
    decide

/-- C8: strength is not monotone under appending a character: appending a
third repeated character can break the no-consecutive-repeat advisory
rule and drop the classification. -/
theorem claim_C8 : ∃ (s : List Char) (c : Char),
    strengthRank (validatePassword (s ++ [c])).strength
      < strengthRank (validatePassword s).strength := by
  refine ⟨"Qwerty1!!".data, '!', ?_⟩
  rw [validatePassword_strength_points, validatePassword_strength_points]
  decide

/-- C9: the display label map sends weak, fair, good, strong to "Weak",
"Fair", "Good", "Strong", and the colour map assigns a distinct token to
each of the four strength levels. -/
theorem claim_C9 :
    (getPasswordStrengthText PasswordStrength.weak = "Weak"
      ∧ getPasswordStrengthText PasswordStrength.fair = "Fair"
      ∧ getPasswordStrengthText PasswordStrength.good = "Good"
      ∧ getPasswordStrengthText PasswordStrength.strong = "Strong")
    ∧ ∀ a b : PasswordStrength,
        getPasswordStrengthColor a = getPasswordStrengthColor b → a = b := by
  refine ⟨⟨rfl, rfl, rfl, rfl⟩, ?_⟩
  intro a b
  cases a <;> cases b <;> decide

/-- C10: a password can fail a required rule and still be classified
strong: a 12-character password with uppercase, lowercase and a digit but
no special character scores 6.0 of 7.0, ratio above 0.8. -/
theorem claim_C10 : ∃ p : List Char,
    (validatePassword p).isValid = false
      ∧ (validatePassword p).strength = PasswordStrength.strong := by
  refine ⟨"Abcdefghijk1".data, by decide, ?_⟩
  rw [validatePassword_strength_points]
  decide

/-- Unfolding step for the adjacency predicate on a list with at least
three elements. -/
lemma threeAdjacentSameNonTerm_cons3 (a b c : Char) (rest : List Char) :
    threeAdjacentSameNonTerm (a :: b :: c :: rest)
      ↔ (isLineTerminator a = false ∧ a = b ∧ a = c)
        ∨ threeAdjacentSameNonTerm (b :: c :: rest) := by
  constructor
  · rintro ⟨i, x, hterm, h0, h1, h2⟩
    cases i with
    | zero =>
        left
        simp only [List.getElem?_cons_zero, List.getElem?_cons_succ,
          Option.some.injEq] at h0 h1 h2
        subst h0
        exact ⟨hterm, h1.symm, h2.symm⟩
    | succ j =>
        right
        exact ⟨j, x, hterm, by simpa using h0, by simpa using h1,
          by simpa using h2⟩
  · rintro (⟨hterm, rfl, rfl⟩ | ⟨i, x, hterm, h0, h1, h2⟩)
    · exact ⟨0, a, hterm, by simp, by simp, by simp⟩
    · exact ⟨i + 1, x, hterm, by simpa using h0, by simpa using h1,
        by simpa using h2⟩

/-- The recursive scan `hasTripleRepeat` decides the adjacency predicate
restricted to non-line-terminator characters. -/
lemma hasTripleRepeat_iff : ∀ p : List Char,
    hasTripleRepeat p = true ↔ threeAdjacentSameNonTerm p
  | a :: b :: c :: rest => by
      rw [hasTripleRepeat, threeAdjacentSameNonTerm_cons3,
        ← hasTripleRepeat_iff (b :: c :: rest)]
      simp [Bool.or_eq_true, Bool.and_eq_true, beq_iff_eq, Bool.not_eq_true',
        and_assoc]
  | [] => by
      simp only [hasTripleRepeat]
      constructor
      · intro h
        simp at h
      · rintro ⟨i, x, -, h0, -, -⟩
        simp at h0
  | [a] => by
      simp only [hasTripleRepeat]
      constructor
      · intro h
        simp at h
      · rintro ⟨i, x, -, -, h1, -⟩
        rw [List.getElem?_eq_none (by simp)] at h1
        simp at h1
  | [a, b] => by
      simp only [hasTripleRepeat]
      constructor
      · intro h
        simp at h
      · rintro ⟨i, x, -, -, -, h2⟩
        rw [List.getElem?_eq_none (by simp)] at h2
        simp at h2

/-- C7 fails on the code: in the regex, the dot does not match line
terminators, so a string of three newlines contains a character at three
adjacent positions while the no-consecutive-repeat advisory rule still
passes and contributes its weight. -/
theorem claim_C7_counterexample :
    ((ADDITIONAL_REQUIREMENTS.get ⟨1, by decide⟩).test ['\n', '\n', '\n'] = true)
      ∧ threeAdjacentSame ['\n', '\n', '\n'] := by
  exact ⟨by decide, ⟨0, '\n', rfl, rfl, rfl⟩⟩

/-- C7 amended: the no-consecutive-repeat advisory rule passes, and so
contributes its 0.5 weight, iff the string has no character other than a
line terminator occurring at three adjacent positions. -/
theorem claim_C7_amended (p : List Char) :
    ((ADDITIONAL_REQUIREMENTS.get ⟨1, by decide⟩).test p = true)
      ↔ ¬ threeAdjacentSameNonTerm p := by
  have hrule : (ADDITIONAL_REQUIREMENTS.get ⟨1, by decide⟩).test p
      = !hasTripleRepeat p := rfl
  rw [hrule, Bool.not_eq_true', ← Bool.not_eq_true]
  exact not_congr (hasTripleRepeat_iff p)
